import Mathlib

/-!
Shallow embedding of the peachy concurrency core (task supervisor +
message mediator), translated from `src/manager.rs` and
`src/mediator/routine.rs`.

Channels (tokio `mpsc`) are modelled as FIFO queues with a flag recording
whether the receiving half is still alive: `send` appends and fails exactly
when the receiver was dropped; a bounded channel suspends when full but
never drops a message, so capacity does not appear in the model. Stateful
Rust code becomes explicit state passing: every operation takes the channel
or registry it mutates and returns the updated value.
-/

namespace Peachy

/-- Envelope carried to the destination: `Message { source, message }`
(`src/mediator/routine.rs`). -/
structure Message (E M : Type) where
  source : E
  message : M
  deriving DecidableEq, Repr

/-- Transport unit inside the mediator: `MessagePoint { destination, payload }`
(`src/mediator/routine.rs`). -/
structure MessagePoint (E M : Type) where
  destination : E
  payload : Message E M
  deriving DecidableEq, Repr

/-- A tokio mpsc channel: FIFO queue of pending items plus whether the
receiving half is still alive. -/
structure Channel (α : Type) where
  queue : List α
  rxAlive : Bool
  deriving DecidableEq, Repr

/-- Append one item at the back of the queue (FIFO enqueue). -/
def Channel.push {α : Type} (c : Channel α) (x : α) : Channel α :=
  { c with queue := c.queue ++ [x] }

/-- tokio `Sender::send`: succeeds (appending FIFO) iff the receiving half
is alive; returns `none` (the `SendError`) when the receiver was dropped. -/
def Channel.trySend {α : Type} (c : Channel α) (x : α) : Option (Channel α) :=
  if c.rxAlive then some (c.push x) else none

/-- Error taxonomy of `src/mediator/error.rs` (`MediatorError<E>`). The
`JoinError` payload of `JoinHandleError` is opaque and irrelevant here. -/
inductive MediatorError (E : Type) where
  | ChannelClosed (src dst : E)
  | TargetUnreachable (target : E)
  | JoinHandleError
  deriving DecidableEq, Repr

/-- Mediator-private inbound side: `RecvTunnel { source, rx }`. -/
structure RecvTunnel (E M : Type) where
  source : E
  rx : Channel (MessagePoint E M)
  deriving DecidableEq, Repr

/-- Registry entry: `SendTunnel { destination, tx }`. -/
structure SendTunnel (E M : Type) where
  destination : E
  tx : Channel (MessagePoint E M)
  deriving DecidableEq, Repr

/-- Client handle returned by `connect`: its identity plus the two channel
ends. The channel state itself is passed explicitly to each operation. -/
structure Connector (E M : Type) where
  source : E
  tx : Channel (MessagePoint E M)
  rx : Channel (MessagePoint E M)
  deriving DecidableEq, Repr

/-- `Connector::send`: wrap `msg` with the connector's own identity as
source, build the `MessagePoint`, enqueue on the outbound-to-mediator
channel `ch`; the enqueue fails with `ChannelClosed { from: self.source,
to: dest }` iff the mediator's receiving tunnel was dropped. -/
def Connector.send {E M : Type} (source : E) (ch : Channel (MessagePoint E M))
    (dst : E) (msg : M) : Except (MediatorError E) (Channel (MessagePoint E M)) :=
  match ch.trySend { destination := dst, payload := { source := source, message := msg } } with
  | some c2 => .ok c2
  | none => .error (.ChannelClosed source dst)

/-- `Connector::recv`: take the next `MessagePoint` off the inbound channel
`ch` and strip the destination tag, keeping only the payload envelope;
`none` at end of stream. -/
def Connector.recv {E M : Type} (ch : Channel (MessagePoint E M)) :
    Option (Message E M × Channel (MessagePoint E M)) :=
  match ch.queue with
  | [] => none
  | mp :: rest => some (mp.payload, { ch with queue := rest })

/-- Everything a `recv` loop observes on channel `ch`, in order: the
payload envelopes of the queued points. -/
def recvAll {E M : Type} (ch : Channel (MessagePoint E M)) : List (Message E M) :=
  ch.queue.map MessagePoint.payload

/-- `senders.iter().find(|&t| t.destination == to)`: first registry entry
whose tag equals the destination. -/
def findDest {E M : Type} [DecidableEq E] (dst : E) :
    List (SendTunnel E M) → Option (SendTunnel E M)
  | [] => none
  | t :: rest => if t.destination = dst then some t else findDest dst rest

/-- Enqueue `mp` on the channel of the first registry entry whose tag
equals `to` (the entry `find` resolved to), leaving all others unchanged. -/
def enqueueFirst {E M : Type} [DecidableEq E] (dst : E) (mp : MessagePoint E M) :
    List (SendTunnel E M) → List (SendTunnel E M)
  | [] => []
  | t :: rest =>
    if t.destination = dst then { t with tx := t.tx.push mp } :: rest
    else t :: enqueueFirst dst mp rest

/-- `Mediator::redirect(source, to, message, senders)`: scan the shared
registry for the first entry tagged `to` (`TargetUnreachable { target: to }`
if absent), then send `MessagePoint { destination: to, payload:
Message { source, message } }` on its channel (`ChannelClosed { from:
source, to }` if the peer's receiving end was dropped). -/
def redirect {E M : Type} [DecidableEq E] (source dst : E) (message : M)
    (senders : List (SendTunnel E M)) :
    Except (MediatorError E) (List (SendTunnel E M)) :=
  match findDest dst senders with
  | none => .error (.TargetUnreachable dst)
  | some t =>
    if t.tx.rxAlive then
      .ok (enqueueFirst dst
        { destination := dst, payload := { source := source, message := message } } senders)
    else
      .error (.ChannelClosed source dst)

/-- Body of `Mediator::handle_messages`: drain the tunnel's pending points
in FIFO order, redirecting each (a redirect error aborts the loop via `?`);
when the channel reports closure (queue exhausted), return
`Err(TargetUnreachable { target: receiver.source })`. Returns the task's
result together with the registry state. -/
def handleLoop {E M : Type} [DecidableEq E] (source : E)
    (points : List (MessagePoint E M)) (senders : List (SendTunnel E M)) :
    Except (MediatorError E) Unit × List (SendTunnel E M) :=
  match points with
  | [] => (.error (.TargetUnreachable source), senders)
  | p :: rest =>
    match redirect source p.destination p.payload.message senders with
    | .ok s2 => handleLoop source rest s2
    | .error e => (.error e, senders)

/-- `Mediator::handle_messages(receiver, send_tunnels)` on a receiver whose
connector has finished sending (finite queue, then closure). -/
def handle_messages {E M : Type} [DecidableEq E] (receiver : RecvTunnel E M)
    (senders : List (SendTunnel E M)) :
    Except (MediatorError E) Unit × List (SendTunnel E M) :=
  handleLoop receiver.source receiver.rx.queue senders

/-- `Mediator::run`: one forwarding task per `RecvTunnel`; the handles are
awaited in spawn order and the first error is propagated (`result?`).
Modelled as the sequential interleaving of the tasks, threading the shared
registry. -/
def mediatorRun {E M : Type} [DecidableEq E] (receivers : List (RecvTunnel E M))
    (senders : List (SendTunnel E M)) :
    Except (MediatorError E) Unit × List (SendTunnel E M) :=
  match receivers with
  | [] => (.ok (), senders)
  | r :: rest =>
    match handle_messages r senders with
    | (.ok _, s2) => mediatorRun rest s2
    | (.error e, s2) => (.error e, s2)

/-- The mediator's state: private `RecvTunnel` list plus the shared
`SendTunnel` registry (the `Arc<Mutex<Vec<_>>>`). -/
structure MediatorState (E M : Type) where
  receivers : List (RecvTunnel E M)
  senders : List (SendTunnel E M)
  deriving DecidableEq, Repr

/-- `Mediator::new()`: no tunnels. -/
def Mediator.new {E M : Type} : MediatorState E M :=
  { receivers := [], senders := [] }

/-- `Mediator::connect(source)`: create two fresh channels, push a
`SendTunnel { destination: source }` onto the shared registry and a
`RecvTunnel { source }` onto the private list, and hand back a `Connector`
wrapping the complementary ends. -/
def connect {E M : Type} (st : MediatorState E M) (source : E) :
    MediatorState E M × Connector E M :=
  ({ receivers := st.receivers ++ [{ source := source, rx := ⟨[], true⟩ }],
     senders := st.senders ++ [{ destination := source, tx := ⟨[], true⟩ }] },
   { source := source, tx := ⟨[], true⟩, rx := ⟨[], true⟩ })

/-- Fold `connect` over a list of identities starting from state `st`. -/
def connectList {E M : Type} (st : MediatorState E M) : List E → MediatorState E M
  | [] => st
  | e :: rest => connectList (connect st e).1 rest

/-- The mediator state after calling `connect` once per identity in `ids`,
starting from `Mediator::new()`. -/
def connectAll {E M : Type} (ids : List E) : MediatorState E M :=
  connectList Mediator.new ids

/-- Dropping an identity's `Connector` drops the receiving half of the
mediator-to-connector channel: mark the first registry entry tagged `who`
as having a dead receiver. -/
def dropConnectorAt {E M : Type} [DecidableEq E] (who : E) :
    List (SendTunnel E M) → List (SendTunnel E M)
  | [] => []
  | t :: rest =>
    if t.destination = who then { t with tx := { t.tx with rxAlive := false } } :: rest
    else t :: dropConnectorAt who rest

/-- Messages a `Connector::recv` loop at identity `dst` observes: drain the
channel of the registry entry `redirect` delivers to. -/
def observedAt {E M : Type} [DecidableEq E] (dst : E)
    (senders : List (SendTunnel E M)) : List (Message E M) :=
  match findDest dst senders with
  | some t => recvAll t.tx
  | none => []

/-- Iterate `Connector::send` over a list of payloads (the `N` messages a
routine sends to one destination), threading the outbound channel. -/
def sendAll {E M : Type} (source dst : E) (msgs : List M)
    (ch : Channel (MessagePoint E M)) :
    Except (MediatorError E) (Channel (MessagePoint E M)) :=
  match msgs with
  | [] => .ok ch
  | m :: rest =>
    match Connector.send source ch dst m with
    | .ok c2 => sendAll source dst rest c2
    | .error e => .error e

/-!
Manager model (`src/manager.rs`). `A` stands for the opaque
`anyhow::Error` payload, `J` for the opaque `tokio::task::JoinError`.
A routine is abstracted to the outcome its spawned task will produce at
join time: `Except.error j` when the task terminated abnormally
(`JoinHandle::await` returned a `JoinError`), `Except.ok r` when the task
completed with the routine's own `ManagerResult` `r`.
-/

/-- `ManagerError` of `src/manager.rs`: `Generic`, `RuntimeError`
(task execution / `JoinError`), `RoutineError`. -/
inductive ManagerError (A J : Type) where
  | Generic (e : A)
  | RuntimeError (e : J)
  | RoutineError (e : A)
  deriving DecidableEq, Repr

/-- `ManagerResult = Result<(), ManagerError>`. -/
abbrev ManagerResult (A J : Type) := Except (ManagerError A J) Unit

/-- What awaiting one spawned task yields: a `JoinError` or the routine's
own result. -/
abbrev TaskOutcome (A J : Type) := Except J (ManagerResult A J)

/-- The spawn loop of `Manager::run_routines`: drain the (already
reversed) idle list front to back, pushing each spawned handle onto
`running_routines`. -/
def spawnLoop {A J : Type} (idle running : List (TaskOutcome A J)) :
    List (TaskOutcome A J) :=
  match idle with
  | [] => running
  | r :: rest => spawnLoop rest (running ++ [r])

/-- `Manager::run_routines`: `self.idle_routines.reverse()` followed by the
drain-and-spawn loop; returns the `running_routines` list, i.e. the order
in which tasks will later be joined. -/
def run_routines {A J : Type} (idle : List (TaskOutcome A J)) :
    List (TaskOutcome A J) :=
  spawnLoop idle.reverse []

/-- `Manager::join_routines`: await each handle front to back;
`worker.await.map_err(ManagerError::RuntimeError)??` turns a `JoinError`
into `RuntimeError` and propagates a routine-reported failure as is,
returning at the first failure. -/
def join_routines {A J : Type} (running : List (TaskOutcome A J)) :
    ManagerResult A J :=
  match running with
  | [] => .ok ()
  | w :: rest =>
    match w with
    | .error j => .error (.RuntimeError j)
    | .ok (.error e) => .error e
    | .ok (.ok _) => join_routines rest

/-- `Manager::run`: launch phase then join phase (`run_routines` always
returns `Ok`, so the `RoutineError` mapping on it never fires). -/
def Manager.run {A J : Type} (idle : List (TaskOutcome A J)) :
    ManagerResult A J :=
  join_routines (run_routines idle)

/-! Helper lemmas about the registry scan and enqueue. -/

theorem findDest_eq_none {E M : Type} [DecidableEq E] {dst : E}
    {s : List (SendTunnel E M)} (h : ∀ t ∈ s, t.destination ≠ dst) :
    findDest dst s = none := by
  induction s with
  | nil => rfl
  | cons t rest ih =>
    simp only [findDest]
    rw [if_neg (h t (List.mem_cons_self t rest))]
    exact ih (fun u hu => h u (List.mem_cons_of_mem t hu))

theorem findDest_append_right {E M : Type} [DecidableEq E] {dst : E}
    {s1 : List (SendTunnel E M)} (h : ∀ t ∈ s1, t.destination ≠ dst)
    (s2 : List (SendTunnel E M)) :
    findDest dst (s1 ++ s2) = findDest dst s2 := by
  induction s1 with
  | nil => rfl
  | cons t rest ih =>
    simp only [List.cons_append, findDest]
    rw [if_neg (h t (List.mem_cons_self t rest))]
    exact ih (fun u hu => h u (List.mem_cons_of_mem t hu))

theorem enqueueFirst_append_right {E M : Type} [DecidableEq E] {dst : E}
    {s1 : List (SendTunnel E M)} (h : ∀ t ∈ s1, t.destination ≠ dst)
    (mp : MessagePoint E M) (s2 : List (SendTunnel E M)) :
    enqueueFirst dst mp (s1 ++ s2) = s1 ++ enqueueFirst dst mp s2 := by
  induction s1 with
  | nil => rfl
  | cons t rest ih =>
    simp only [List.cons_append, enqueueFirst]
    rw [if_neg (h t (List.mem_cons_self t rest))]
    exact congrArg (List.cons t) (ih (fun u hu => h u (List.mem_cons_of_mem t hu)))

theorem enqueueFirst_map_dest {E M : Type} [DecidableEq E] (dst : E)
    (mp : MessagePoint E M) (s : List (SendTunnel E M)) :
    (enqueueFirst dst mp s).map SendTunnel.destination =
      s.map SendTunnel.destination := by
  induction s with
  | nil => rfl
  | cons t rest ih =>
    simp only [enqueueFirst]
    split
    · simp
    · simp [ih]

theorem findDest_enqueueFirst_eq {E M : Type} [DecidableEq E] {dst : E}
    {s : List (SendTunnel E M)} {u : SendTunnel E M}
    (h : findDest dst s = some u) (mp : MessagePoint E M) :
    findDest dst (enqueueFirst dst mp s) = some { u with tx := u.tx.push mp } := by
  induction s with
  | nil => simp [findDest] at h
  | cons t rest ih =>
    by_cases hd : t.destination = dst
    · simp only [findDest, if_pos hd] at h
      cases h
      simp [enqueueFirst, hd, findDest]
    · simp only [findDest, if_neg hd] at h
      simp [enqueueFirst, hd, findDest, ih h]

theorem findDest_enqueueFirst_ne {E M : Type} [DecidableEq E] {d dst : E}
    (h : d ≠ dst) (mp : MessagePoint E M) (s : List (SendTunnel E M)) :
    findDest d (enqueueFirst dst mp s) = findDest d s := by
  induction s with
  | nil => rfl
  | cons t rest ih =>
    by_cases hd : t.destination = dst
    · subst hd
      simp [enqueueFirst, findDest, Ne.symm h]
    · simp [enqueueFirst, hd, findDest, ih]

theorem recvAll_push {E M : Type} (ch : Channel (MessagePoint E M))
    (mp : MessagePoint E M) :
    recvAll (ch.push mp) = recvAll ch ++ [mp.payload] := by
  simp [recvAll, Channel.push]

theorem observedAt_enqueueFirst {E M : Type} [DecidableEq E] {dst : E}
    {s : List (SendTunnel E M)} {u : SendTunnel E M}
    (h : findDest dst s = some u) (mp : MessagePoint E M) :
    observedAt dst (enqueueFirst dst mp s) = observedAt dst s ++ [mp.payload] := by
  simp [observedAt, h, findDest_enqueueFirst_eq h mp, recvAll_push]

theorem redirect_found_alive {E M : Type} [DecidableEq E] {dst : E}
    {s : List (SendTunnel E M)} {u : SendTunnel E M}
    (h : findDest dst s = some u) (ha : u.tx.rxAlive = true) (src : E) (m : M) :
    redirect src dst m s =
      .ok (enqueueFirst dst ⟨dst, ⟨src, m⟩⟩ s) := by
  simp [redirect, h, ha]

/-! Helper lemmas about the forwarding loop, `connect` and the Manager. -/

theorem handleLoop_delivers {E M : Type} [DecidableEq E] (A B : E)
    (pts : List (MessagePoint E M)) :
    ∀ (s : List (SendTunnel E M)) (u : SendTunnel E M),
      (∀ p ∈ pts, p.destination = B) → findDest B s = some u →
      u.tx.rxAlive = true →
      observedAt B (handleLoop A pts s).2 =
        observedAt B s ++ pts.map (fun p => Message.mk A p.payload.message) := by
  induction pts with
  | nil =>
    intro s u _ _ _
    simp [handleLoop]
  | cons p rest ih =>
    intro s u hd hf ha
    have hpB : p.destination = B := hd p (List.mem_cons_self p rest)
    simp only [handleLoop, hpB, redirect_found_alive hf ha A p.payload.message]
    rw [ih (enqueueFirst B ⟨B, ⟨A, p.payload.message⟩⟩ s)
        { u with tx := u.tx.push ⟨B, ⟨A, p.payload.message⟩⟩ }
        (fun q hq => hd q (List.mem_cons_of_mem p hq))
        (findDest_enqueueFirst_eq hf _) (by simp [Channel.push]; exact ha)]
    rw [observedAt_enqueueFirst hf]
    simp

theorem handleLoop_ne_ok {E M : Type} [DecidableEq E] (A : E)
    (pts : List (MessagePoint E M)) :
    ∀ s : List (SendTunnel E M), ∃ e, (handleLoop A pts s).1 = .error e := by
  induction pts with
  | nil => intro s; exact ⟨.TargetUnreachable A, rfl⟩
  | cons p rest ih =>
    intro s
    cases hred : redirect A p.destination p.payload.message s with
    | ok s2 => simpa [handleLoop, hred] using ih s2
    | error e => exact ⟨e, by simp [handleLoop, hred]⟩

theorem handleLoop_unreachable {E M : Type} [DecidableEq E] (A : E)
    (pts : List (MessagePoint E M)) :
    ∀ s : List (SendTunnel E M),
      (∀ p ∈ pts, ∃ u, findDest p.destination s = some u ∧ u.tx.rxAlive = true) →
      (handleLoop A pts s).1 = .error (.TargetUnreachable A) := by
  induction pts with
  | nil => intro s _; rfl
  | cons p rest ih =>
    intro s h
    obtain ⟨u, hf, ha⟩ := h p (List.mem_cons_self p rest)
    simp only [handleLoop, redirect_found_alive hf ha A p.payload.message]
    apply ih
    intro q hq
    obtain ⟨v, hfv, hav⟩ := h q (List.mem_cons_of_mem p hq)
    by_cases hqd : q.destination = p.destination
    · rw [hqd] at hfv ⊢
      exact ⟨_, findDest_enqueueFirst_eq hfv _, by simp [Channel.push]; exact hav⟩
    · rw [findDest_enqueueFirst_ne hqd _ s]
      exact ⟨v, hfv, hav⟩

theorem redirect_map_dest {E M : Type} [DecidableEq E] {src dst : E} {m : M}
    {s s2 : List (SendTunnel E M)} (h : redirect src dst m s = .ok s2) :
    s2.map SendTunnel.destination = s.map SendTunnel.destination := by
  unfold redirect at h
  split at h
  · exact absurd h (by simp)
  · split at h
    · simp only [Except.ok.injEq] at h
      rw [← h]
      exact enqueueFirst_map_dest _ _ s
    · exact absurd h (by simp)

theorem handleLoop_map_dest {E M : Type} [DecidableEq E] (A : E)
    (pts : List (MessagePoint E M)) :
    ∀ s : List (SendTunnel E M),
      ((handleLoop A pts s).2).map SendTunnel.destination =
        s.map SendTunnel.destination := by
  induction pts with
  | nil => intro s; rfl
  | cons p rest ih =>
    intro s
    cases hred : redirect A p.destination p.payload.message s with
    | ok s2 =>
      simp only [handleLoop, hred]
      rw [ih s2, redirect_map_dest hred]
    | error e => simp [handleLoop, hred]

theorem mediatorRun_map_dest {E M : Type} [DecidableEq E]
    (receivers : List (RecvTunnel E M)) :
    ∀ s : List (SendTunnel E M),
      ((mediatorRun receivers s).2).map SendTunnel.destination =
        s.map SendTunnel.destination := by
  induction receivers with
  | nil => intro s; rfl
  | cons r rest ih =>
    intro s
    rcases hp : handleLoop r.source r.rx.queue s with ⟨res, s2⟩
    have h2 : s2.map SendTunnel.destination = s.map SendTunnel.destination := by
      have h3 := handleLoop_map_dest r.source r.rx.queue s
      rw [hp] at h3
      exact h3
    cases res with
    | ok _ =>
      simp only [mediatorRun, handle_messages, hp]
      rw [ih s2, h2]
    | error e => simp [mediatorRun, handle_messages, hp, h2]

theorem findDest_dropConnectorAt {E M : Type} [DecidableEq E] {B : E}
    {s : List (SendTunnel E M)} {u : SendTunnel E M}
    (hf : findDest B s = some u) :
    findDest B (dropConnectorAt B s) =
      some { u with tx := { u.tx with rxAlive := false } } := by
  induction s with
  | nil => simp [findDest] at hf
  | cons t rest ih =>
    by_cases hd : t.destination = B
    · simp only [findDest, if_pos hd] at hf
      cases hf
      simp [dropConnectorAt, hd, findDest]
    · simp only [findDest, if_neg hd] at hf
      simp [dropConnectorAt, hd, findDest, ih hf]

theorem connectList_senders {E M : Type} (st : MediatorState E M) (ids : List E) :
    (connectList st ids).senders.map SendTunnel.destination =
      st.senders.map SendTunnel.destination ++ ids := by
  induction ids generalizing st with
  | nil => simp [connectList]
  | cons e rest ih =>
    simp only [connectList]
    rw [ih]
    simp [connect]

theorem connectList_receivers {E M : Type} (st : MediatorState E M) (ids : List E) :
    (connectList st ids).receivers.map RecvTunnel.source =
      st.receivers.map RecvTunnel.source ++ ids := by
  induction ids generalizing st with
  | nil => simp [connectList]
  | cons e rest ih =>
    simp only [connectList]
    rw [ih]
    simp [connect]

theorem connectAll_senders_dest {E M : Type} (ids : List E) :
    (connectAll (M := M) ids).senders.map SendTunnel.destination = ids := by
  simpa [Mediator.new] using connectList_senders (Mediator.new (E := E) (M := M)) ids

theorem connectAll_receivers_src {E M : Type} (ids : List E) :
    (connectAll (M := M) ids).receivers.map RecvTunnel.source = ids := by
  simpa [Mediator.new] using connectList_receivers (Mediator.new (E := E) (M := M)) ids

theorem sendAll_alive {E M : Type} (A B : E) (msgs : List M) :
    ∀ q : List (MessagePoint E M),
      sendAll A B msgs ⟨q, true⟩ =
        .ok ⟨q ++ msgs.map (fun m => MessagePoint.mk B (Message.mk A m)), true⟩ := by
  induction msgs with
  | nil => intro q; simp [sendAll]
  | cons m rest ih =>
    intro q
    simp only [sendAll, Connector.send, Channel.trySend, Channel.push, if_pos]
    rw [ih (q ++ [MessagePoint.mk B (Message.mk A m)])]
    simp

theorem spawnLoop_eq {A J : Type} (idle : List (TaskOutcome A J)) :
    ∀ running, spawnLoop idle running = running ++ idle := by
  induction idle with
  | nil => intro r; simp [spawnLoop]
  | cons x rest ih =>
    intro r
    simp [spawnLoop, ih]

theorem join_routines_skip_ok {A J : Type} (pre : List (TaskOutcome A J))
    (h : ∀ w ∈ pre, w = .ok (.ok ())) (rest : List (TaskOutcome A J)) :
    join_routines (pre ++ rest) = join_routines rest := by
  induction pre with
  | nil => rfl
  | cons w ws ih =>
    have hw : w = .ok (.ok ()) := h w (List.mem_cons_self w ws)
    rw [List.cons_append, hw]
    simp only [join_routines]
    exact ih (fun x hx => h x (List.mem_cons_of_mem w hx))

theorem join_routines_all_ok {A J : Type} (ws : List (TaskOutcome A J))
    (h : ∀ w ∈ ws, w = .ok (.ok ())) : join_routines ws = .ok () := by
  have h2 := join_routines_skip_ok ws h []
  simpa using h2

/-! Claim theorems. -/

/-- C1: for identities `A` and `B` connected before the mediator's run
(`B` has a live registry entry, `A`'s fresh outbound channel is open), a
payload `m` sent from `A` to `B` via `Connector::send` and forwarded by the
mediator is observed at `B` structurally equal to `m`, inside an envelope
whose source field is `A`: `send` wraps the payload with the sender's own
identity, `redirect` re-wraps it unchanged, and `recv` strips only the
destination tag. -/
theorem round_trip_source_preserved {E M : Type} [DecidableEq E] (A B : E)
    (m : M) (s : List (SendTunnel E M)) (u : SendTunnel E M)
    (hf : findDest B s = some u) (ha : u.tx.rxAlive = true) :
    ∃ ch2, Connector.send A ⟨[], true⟩ B m = .ok ch2 ∧
      observedAt B (handleLoop A ch2.queue s).2 =
        observedAt B s ++ [Message.mk A m] := by
  refine ⟨⟨[⟨B, ⟨A, m⟩⟩], true⟩, rfl, ?_⟩
  have hd : ∀ p ∈ [MessagePoint.mk B (Message.mk A m)], p.destination = B := by
    intro p hp
    simp only [List.mem_singleton] at hp
    rw [hp]
  simpa using handleLoop_delivers A B [⟨B, ⟨A, m⟩⟩] s u hd hf ha

/-- Witness for C1 at concrete identities 0, 1 and payload 42. -/
theorem round_trip_source_preserved_witness :
    ∃ ch2, Connector.send 0 ⟨[], true⟩ 1 (42 : ℕ) = .ok ch2 ∧
      observedAt 1 (handleLoop 0 ch2.queue
          [SendTunnel.mk 1 ⟨[], true⟩]).2 =
        observedAt 1 [SendTunnel.mk (1 : ℕ) ⟨[], true⟩] ++ [Message.mk 0 42] :=
  round_trip_source_preserved 0 1 42 [⟨1, ⟨[], true⟩⟩] ⟨1, ⟨[], true⟩⟩
    (by decide) rfl

/-- C2: for identities `A`, `B` connected before run, if `A` sends the
payload list `ms` to `B` (all sends succeed on its fresh outbound channel),
then `B` observes exactly those `ms.length` messages, in send order, each
tagged with source `A` — none dropped. -/
theorem send_order_preserved {E M : Type} [DecidableEq E] (A B : E)
    (ms : List M) (s : List (SendTunnel E M)) (u : SendTunnel E M)
    (hf : findDest B s = some u) (ha : u.tx.rxAlive = true) :
    ∃ ch2, sendAll A B ms ⟨[], true⟩ = .ok ch2 ∧
      observedAt B (handle_messages ⟨A, ch2⟩ s).2 =
        observedAt B s ++ ms.map (Message.mk A) := by
  refine ⟨⟨ms.map (fun m => ⟨B, ⟨A, m⟩⟩), true⟩, ?_, ?_⟩
  · simpa using sendAll_alive A B ms []
  · have hd : ∀ p ∈ ms.map (fun m => MessagePoint.mk B (Message.mk A m)),
        p.destination = B := by
      intro p hp
      simp only [List.mem_map] at hp
      obtain ⟨m, _, rfl⟩ := hp
      rfl
    have h2 := handleLoop_delivers A B (ms.map (fun m => ⟨B, ⟨A, m⟩⟩)) s u hd hf ha
    simp only [handle_messages]
    rw [h2]
    simp [List.map_map, Function.comp]

/-- Witness for C2: three payloads 1, 2, 3 from identity 0 to identity 1. -/
theorem send_order_preserved_witness :
    ∃ ch2, sendAll 0 1 [1, 2, 3] ⟨[], true⟩ = .ok ch2 ∧
      observedAt 1 (handle_messages ⟨0, ch2⟩
          [SendTunnel.mk 1 ⟨[], true⟩]).2 =
        observedAt 1 [SendTunnel.mk (1 : ℕ) ⟨[], true⟩] ++
          [1, 2, 3].map (Message.mk (0 : ℕ)) :=
  send_order_preserved 0 1 [1, 2, 3] [⟨1, ⟨[], true⟩⟩] ⟨1, ⟨[], true⟩⟩
    (by decide) rfl

/-- C3: for a destination that never called `connect` (not among the
connected identities), `redirect` scans the registry, finds no entry
tagged with it, and fails with `TargetUnreachable { target: dst }`; hence
a message sent to it makes the forwarding task fail the same way. -/
theorem unconnected_target_unreachable {E M : Type} [DecidableEq E]
    (A dst : E) (m : M) (ids : List E) (hni : dst ∉ ids) :
    redirect A dst m (connectAll (M := M) ids).senders =
        .error (.TargetUnreachable dst) ∧
    handle_messages ⟨A, ⟨[⟨dst, ⟨A, m⟩⟩], true⟩⟩ (connectAll (M := M) ids).senders =
      (.error (.TargetUnreachable dst), (connectAll (M := M) ids).senders) := by
  have hnone : findDest dst (connectAll (M := M) ids).senders = none := by
    apply findDest_eq_none
    intro t ht heq
    apply hni
    rw [← connectAll_senders_dest (M := M) ids, ← heq]
    exact List.mem_map_of_mem SendTunnel.destination ht
  refine ⟨by simp [redirect, hnone], ?_⟩
  simp [handle_messages, handleLoop, redirect, hnone]

/-- Witness for C3: identities 0 and 1 connected, destination 2 never
connected. -/
theorem unconnected_target_unreachable_witness :
    redirect 0 2 (5 : ℕ) (connectAll (M := ℕ) [0, 1]).senders =
        .error (.TargetUnreachable 2) ∧
    handle_messages ⟨0, ⟨[⟨2, ⟨0, 5⟩⟩], true⟩⟩ (connectAll (M := ℕ) [0, 1]).senders =
      (.error (.TargetUnreachable 2), (connectAll (M := ℕ) [0, 1]).senders) :=
  unconnected_target_unreachable 0 2 5 [0, 1] (by decide)

/-- C4: once `B`'s `Connector` has been dropped (the receiving half of the
registry entry's channel is dead), a subsequent delivery from `A` to `B`
fails in `redirect` with `ChannelClosed { from: A, to: B }`; likewise
`Connector::send` itself fails with `ChannelClosed { from: A, to: B }`
when the mediator's receiving tunnel has been dropped. -/
theorem dropped_connector_channel_closed {E M : Type} [DecidableEq E]
    (A B : E) (m : M) (s : List (SendTunnel E M)) (u : SendTunnel E M)
    (hf : findDest B s = some u) :
    redirect A B m (dropConnectorAt B s) = .error (.ChannelClosed A B) ∧
    ∀ q : List (MessagePoint E M),
      Connector.send A ⟨q, false⟩ B m = .error (.ChannelClosed A B) := by
  constructor
  · simp [redirect, findDest_dropConnectorAt hf]
  · intro q
    simp [Connector.send, Channel.trySend]

/-- Witness for C4 at concrete identities 0, 1 with a one-entry registry. -/
theorem dropped_connector_channel_closed_witness :
    redirect 0 1 (7 : ℕ) (dropConnectorAt 1 [SendTunnel.mk 1 ⟨[], true⟩]) =
        .error (.ChannelClosed 0 1) ∧
    ∀ q : List (MessagePoint ℕ ℕ),
      Connector.send 0 ⟨q, false⟩ 1 7 = .error (.ChannelClosed 0 1) :=
  dropped_connector_channel_closed 0 1 7 [⟨1, ⟨[], true⟩⟩] ⟨1, ⟨[], true⟩⟩
    (by decide)

/-- C5: a forwarding task whose own `RecvTunnel` channel reports permanent
closure after draining its pending points (all of them deliverable)
terminates with `TargetUnreachable` tagged with the task's own identity —
the `RecvTunnel`'s source, not any destination. -/
theorem forwarder_closure_reports_own_identity {E M : Type} [DecidableEq E]
    (A : E) (pts : List (MessagePoint E M)) (alive : Bool)
    (s : List (SendTunnel E M))
    (h : ∀ p ∈ pts, ∃ u, findDest p.destination s = some u ∧ u.tx.rxAlive = true) :
    (handle_messages ⟨A, ⟨pts, alive⟩⟩ s).1 = .error (.TargetUnreachable A) :=
  handleLoop_unreachable A pts s h

/-- Witness for C5: the task for identity 0 drains one point addressed to
the connected identity 1 and then reports `TargetUnreachable 0`. -/
theorem forwarder_closure_reports_own_identity_witness :
    (handle_messages ⟨0, ⟨[⟨1, ⟨0, 7⟩⟩], true⟩⟩
        [SendTunnel.mk (1 : ℕ) ⟨([] : List (MessagePoint ℕ ℕ)), true⟩]).1 =
      .error (.TargetUnreachable 0) :=
  forwarder_closure_reports_own_identity 0 [⟨1, ⟨0, 7⟩⟩] true
    [⟨1, ⟨[], true⟩⟩]
    (by
      intro p hp
      simp only [List.mem_singleton] at hp
      rw [hp]
      exact ⟨⟨1, ⟨[], true⟩⟩, rfl, rfl⟩)

/-- C6: each forwarding task's only exits are a redirect error or
`TargetUnreachable` with its own identity, so a terminating
`Mediator::run` yields an error whenever at least one `RecvTunnel` exists;
it returns `Ok(())` exactly when no identity was ever connected
(`connect` always adds a receiver). -/
theorem mediator_run_err_when_connected {E M : Type} [DecidableEq E] :
    (∀ (receivers : List (RecvTunnel E M)) (senders : List (SendTunnel E M)),
        receivers ≠ [] → ∃ e, (mediatorRun receivers senders).1 = .error e) ∧
    (∀ senders : List (SendTunnel E M),
        mediatorRun ([] : List (RecvTunnel E M)) senders = (.ok (), senders)) ∧
    (∀ ids : List E, ids ≠ [] → (connectAll (M := M) ids).receivers ≠ []) := by
  refine ⟨?_, fun _ => rfl, ?_⟩
  · intro receivers senders hne
    match receivers with
    | [] => exact absurd rfl hne
    | r :: rest =>
      obtain ⟨e, he⟩ := handleLoop_ne_ok r.source r.rx.queue senders
      refine ⟨e, ?_⟩
      rcases hp : handleLoop r.source r.rx.queue senders with ⟨res, s2⟩
      rw [hp] at he
      have hres : res = .error e := he
      rw [hres] at hp
      simp [mediatorRun, handle_messages, hp]
  · intro ids hne hcontra
    apply hne
    have h1 := connectAll_receivers_src (M := M) ids
    rw [hcontra] at h1
    exact h1.symm

/-- Witness for C6: one connected identity makes a terminating run fail. -/
theorem mediator_run_err_when_connected_witness :
    ∃ e, (mediatorRun [RecvTunnel.mk (0 : ℕ) ⟨([] : List (MessagePoint ℕ ℕ)), true⟩]
        []).1 = .error e :=
  (mediator_run_err_when_connected (E := ℕ) (M := ℕ)).1
    [⟨0, ⟨[], true⟩⟩] [] (by decide)

/-- C7 counterexample: the claim says the join loop awaits tasks in
registration order, i.e. the joined sequence equals the registered one.
With two routines whose tasks panic with distinct join errors 1 and 2,
`run_routines` produces the registered list reversed, and `Manager::run`
reports the join error of the *last*-registered routine, not the first. -/
theorem join_order_counterexample :
    ¬ (run_routines [(.error 1 : TaskOutcome ℕ ℕ), .error 2] =
        [.error 1, .error 2]) ∧
    Manager.run [(.error 1 : TaskOutcome ℕ ℕ), .error 2] =
      .error (.RuntimeError 2) := by
  constructor
  · intro h
    have h2 : run_routines [(.error 1 : TaskOutcome ℕ ℕ), .error 2] =
        [.error 2, .error 1] := by
      rw [run_routines, List.reverse_cons, spawnLoop_eq]
      simp
    rw [h2] at h
    have h3 := List.head_eq_of_cons_eq h
    exact absurd (Except.error.inj h3) (by decide)
  · rw [Manager.run, run_routines, List.reverse_cons, spawnLoop_eq]
    simp [join_routines]

/-- C7 amended: `Manager::run_routines` reverses the idle list before
spawning, so the supervisor launches and then joins the tasks in *reverse*
registration order — for routines added r1..rk, the join loop awaits rk
first, then rk-1, down to r1. -/
theorem join_order_is_reverse_registration {A J : Type}
    (idle : List (TaskOutcome A J)) :
    run_routines idle = idle.reverse ∧
    Manager.run idle = join_routines idle.reverse := by
  have h1 : run_routines idle = idle.reverse := by
    rw [run_routines, spawnLoop_eq]
    rfl
  exact ⟨h1, by rw [Manager.run, h1]⟩

/-- C8: the join phase stops at the first failure it encounters,
regardless of what comes after; a task that terminated abnormally with
join error `j` is reported as `RuntimeError j`, while a task that
completed with a routine-reported failure `e` surfaces `e` itself (already
of the shared `ManagerError` type); with only succeeding routines,
`Manager::run` awaits them all and returns success. -/
theorem manager_first_failure_kinds {A J : Type} :
    (∀ (pre post : List (TaskOutcome A J)) (j : J),
        (∀ w ∈ pre, w = .ok (.ok ())) →
        join_routines (pre ++ .error j :: post) = .error (.RuntimeError j)) ∧
    (∀ (pre post : List (TaskOutcome A J)) (e : ManagerError A J),
        (∀ w ∈ pre, w = .ok (.ok ())) →
        join_routines (pre ++ .ok (.error e) :: post) = .error e) ∧
    (∀ idle : List (TaskOutcome A J),
        (∀ w ∈ idle, w = .ok (.ok ())) → Manager.run idle = .ok ()) := by
  refine ⟨?_, ?_, ?_⟩
  · intro pre post j h
    rw [join_routines_skip_ok pre h]
    rfl
  · intro pre post e h
    rw [join_routines_skip_ok pre h]
    rfl
  · intro idle h
    rw [Manager.run, run_routines, spawnLoop_eq, List.nil_append]
    exact join_routines_all_ok idle.reverse
      (fun w hw => h w (List.mem_reverse.mp hw))

/-- Witness for C8: one succeeding routine before a panicking one, before
a routine-failing one, and the all-succeeding batch. -/
theorem manager_first_failure_kinds_witness :
    join_routines ([.ok (.ok ())] ++ .error 3 :: [.ok (.ok ())]) =
      (.error (.RuntimeError 3) : ManagerResult ℕ ℕ) ∧
    join_routines ([.ok (.ok ())] ++ .ok (.error (.Generic 4)) :: []) =
      (.error (.Generic 4) : ManagerResult ℕ ℕ) ∧
    Manager.run [(.ok (.ok ()) : TaskOutcome ℕ ℕ), .ok (.ok ())] = .ok () :=
  ⟨(manager_first_failure_kinds (A := ℕ) (J := ℕ)).1 [.ok (.ok ())] [.ok (.ok ())] 3
      (by intro w hw; simpa using hw),
   (manager_first_failure_kinds (A := ℕ) (J := ℕ)).2.1 [.ok (.ok ())] [] (.Generic 4)
      (by intro w hw; simpa using hw),
   (manager_first_failure_kinds (A := ℕ) (J := ℕ)).2.2 [.ok (.ok ()), .ok (.ok ())]
      (by intro w hw; simp only [List.mem_cons, List.mem_singleton] at hw; rcases hw with h | h | h <;> first | exact h | exact absurd h (by simp))⟩

/-- C9: calling `connect` twice with the same identity appends two tunnel
pairs tagged with that identity — no rejection, no replacement — and a
subsequent `redirect` to that identity resolves to the first matching
registry entry: the message lands in the first duplicate's channel while
the second stays empty. -/
theorem duplicate_connect_first_match {E M : Type} [DecidableEq E]
    (st : MediatorState E M) (A src : E) (m : M)
    (hA : ∀ t ∈ st.senders, t.destination ≠ A) :
    (connect (connect st A).1 A).1.senders =
      st.senders ++ [⟨A, ⟨[], true⟩⟩, ⟨A, ⟨[], true⟩⟩] ∧
    (connect (connect st A).1 A).1.receivers =
      st.receivers ++ [⟨A, ⟨[], true⟩⟩, ⟨A, ⟨[], true⟩⟩] ∧
    redirect src A m (connect (connect st A).1 A).1.senders =
      .ok (st.senders ++ [⟨A, ⟨[⟨A, ⟨src, m⟩⟩], true⟩⟩, ⟨A, ⟨[], true⟩⟩]) := by
  refine ⟨by simp [connect], by simp [connect], ?_⟩
  have hsend : (connect (connect st A).1 A).1.senders =
      st.senders ++ [⟨A, ⟨[], true⟩⟩, ⟨A, ⟨[], true⟩⟩] := by
    simp [connect]
  rw [hsend]
  rw [redirect_found_alive (u := ⟨A, ⟨[], true⟩⟩)
    (by rw [findDest_append_right hA]; simp [findDest]) rfl src m]
  rw [enqueueFirst_append_right hA]
  simp [enqueueFirst, Channel.push]

/-- Witness for C9: duplicate connect of identity 0 on a fresh mediator,
then a redirect from identity 1. -/
theorem duplicate_connect_first_match_witness :
    (connect (connect (Mediator.new (E := ℕ) (M := ℕ)) 0).1 0).1.senders =
      [] ++ [⟨0, ⟨[], true⟩⟩, ⟨0, ⟨[], true⟩⟩] ∧
    (connect (connect (Mediator.new (E := ℕ) (M := ℕ)) 0).1 0).1.receivers =
      [] ++ [⟨0, ⟨[], true⟩⟩, ⟨0, ⟨[], true⟩⟩] ∧
    redirect 1 0 (9 : ℕ)
        (connect (connect (Mediator.new (E := ℕ) (M := ℕ)) 0).1 0).1.senders =
      .ok ([] ++ [⟨0, ⟨[⟨0, ⟨1, 9⟩⟩], true⟩⟩, ⟨0, ⟨[], true⟩⟩]) :=
  duplicate_connect_first_match Mediator.new 0 1 9 (by intro t ht; simp [Mediator.new] at ht)

/-- C10: `connect` appends exactly one `SendTunnel` tagged with the new
identity to the shared registry and exactly one `RecvTunnel` to the
private list; `redirect`, `handle_messages` and the mediator's run
preserve every registry entry's tag — nothing is ever removed, the
registry only grows. -/
theorem registry_append_only {E M : Type} [DecidableEq E] :
    (∀ (st : MediatorState E M) (e : E),
        (connect st e).1.senders = st.senders ++ [⟨e, ⟨[], true⟩⟩] ∧
        (connect st e).1.receivers = st.receivers ++ [⟨e, ⟨[], true⟩⟩]) ∧
    (∀ (src dst : E) (m : M) (s s2 : List (SendTunnel E M)),
        redirect src dst m s = .ok s2 →
        s2.map SendTunnel.destination = s.map SendTunnel.destination) ∧
    (∀ (r : RecvTunnel E M) (s : List (SendTunnel E M)),
        ((handle_messages r s).2).map SendTunnel.destination =
          s.map SendTunnel.destination) ∧
    (∀ (receivers : List (RecvTunnel E M)) (s : List (SendTunnel E M)),
        ((mediatorRun receivers s).2).map SendTunnel.destination =
          s.map SendTunnel.destination) :=
  ⟨fun _ _ => ⟨rfl, rfl⟩,
   fun _ _ _ _ _ h => redirect_map_dest h,
   fun r s => handleLoop_map_dest r.source r.rx.queue s,
   fun receivers s => mediatorRun_map_dest receivers s⟩

/-- Witness for C10: a successful redirect of payload 8 from identity 0 to
the connected identity 1 keeps the registry's tags intact. -/
theorem registry_append_only_witness :
    List.map SendTunnel.destination
        (enqueueFirst 1 ⟨1, ⟨0, 8⟩⟩ [SendTunnel.mk (1 : ℕ) ⟨([] : List (MessagePoint ℕ ℕ)), true⟩]) =
      List.map SendTunnel.destination [SendTunnel.mk (1 : ℕ) ⟨([] : List (MessagePoint ℕ ℕ)), true⟩] :=
  (registry_append_only (E := ℕ) (M := ℕ)).2.1 0 1 8
    [⟨1, ⟨[], true⟩⟩] (enqueueFirst 1 ⟨1, ⟨0, 8⟩⟩ [⟨1, ⟨[], true⟩⟩]) rfl

end Peachy
